import Mathlib

/-!
Shallow embedding of the `foreman` orchestrator plugin (TypeScript).

The embedding follows `src/foreman.ts` (the polling variant: the document in
`src/unnamed/part_001` whose `waitForSession` polls `session.status()` and
auto-answers interactive prompts), `story-parser.ts` (`parseStoryFile`,
`deriveState`, `resolveStoryPath`) and the prompt builders.

Modelling conventions:
* TypeScript exceptions become `Except String` with the exact `Error` message.
* JavaScript strings are handled as `List Char`; the relevant regexes
  (`/(\d+)[).]\s+\S/g`, `/\?\s*(?:\(y\/n\))?[\s]*$|proceed\?|.../i`,
  `/^Status:\s*(.+)$/m`, `/^- \[[ x]\]/gm`, header patterns) are compiled by
  hand into scanners over `List Char`, reproducing the greedy/backtracking
  behaviour of each concrete pattern.  The `/m` line boundaries are the four
  ECMAScript LineTerminators (`\n`, `\r`, U+2028, U+2029).
* `toUpperCase` is modelled by `Char.toUpper` (ASCII case mapping, which
  covers every marker the code searches for).
* Asynchronous I/O through the plugin client becomes a deterministic
  environment (`Env`) of responses plus a `World` of consumed-call counters
  and recorded effects; wall-clock time in the polling loop is abstracted
  into a poll budget (`ForemanConfig.pollBudget`), one unit per iteration of
  the `while (Date.now() - startTime < role_timeout_ms)` loop.
-/

/-! ## Enums (`types.ts`) -/

inductive ForemanState where
  | Idle
  | Developing
  | Reviewing
  | Arbitrating
  | Complete
  | Failed
deriving DecidableEq, Repr

inductive ArbiterVerdict where
  | Pass
  | NeedsWork
deriving DecidableEq, Repr

inductive Role where
  | Developer
  | Reviewer
  | Arbiter
deriving DecidableEq, Repr

inductive ForemanEvent where
  | startDeveloping
  | developmentComplete
  | reviewComplete
  | verdict
  | error
deriving DecidableEq, Repr

/-- String value of a `ForemanState` (the TS enum values are these strings). -/
def ForemanState.str : ForemanState → String
  | .Idle => "Idle"
  | .Developing => "Developing"
  | .Reviewing => "Reviewing"
  | .Arbitrating => "Arbitrating"
  | .Complete => "Complete"
  | .Failed => "Failed"

/-- String value of an `ArbiterVerdict`. -/
def ArbiterVerdict.str : ArbiterVerdict → String
  | .Pass => "Pass"
  | .NeedsWork => "NeedsWork"

/-- String value of a `Role`. -/
def Role.str : Role → String
  | .Developer => "Developer"
  | .Reviewer => "Reviewer"
  | .Arbiter => "Arbiter"

/-- String name of a `ForemanEvent` (the TS union of string literals). -/
def ForemanEvent.str : ForemanEvent → String
  | .startDeveloping => "startDeveloping"
  | .developmentComplete => "developmentComplete"
  | .reviewComplete => "reviewComplete"
  | .verdict => "verdict"
  | .error => "error"

/-! ## The state machine (`nextState` in `foreman.ts`) -/

/-- Message of the `Invalid state transition` error thrown by `nextState`:
`` `Invalid state transition: ${current} + ${event}${verdict ? ` (${verdict})` : ""}` ``. -/
def invalidTransitionMsg (current : ForemanState) (event : ForemanEvent)
    (verdict : Option ArbiterVerdict) : String :=
  let c := current.str
  let e := event.str
  let v := match verdict with
    | some x => " (" ++ x.str ++ ")"
    | none => ""
  "Invalid state transition: " ++ c ++ " + " ++ e ++ v

/-- `nextState(current, event, verdict?, iteration?, maxIterations?)` from
`foreman.ts`.  A `throw` is an `Except.error` carrying the thrown message. -/
def nextState (current : ForemanState) (event : ForemanEvent)
    (verdict : Option ArbiterVerdict) (iteration : Option Nat)
    (maxIterations : Option Nat) : Except String ForemanState :=
  let fallthru : Except String ForemanState :=
    .error (invalidTransitionMsg current event verdict)
  match current with
  | .Idle =>
      if event = .startDeveloping then .ok .Developing
      else fallthru
  | .Developing =>
      if event = .developmentComplete then .ok .Reviewing
      else if event = .error then .ok .Failed
      else fallthru
  | .Reviewing =>
      if event = .reviewComplete then .ok .Arbitrating
      else if event = .error then .ok .Failed
      else fallthru
  | .Arbitrating =>
      if event = .verdict then
        match verdict with
        | some .Pass => .ok .Complete
        | some .NeedsWork =>
            -- `const iter = iteration ?? 1; const max = maxIterations ?? 3;`
            let iter := iteration.getD 1
            let maxI := maxIterations.getD 3
            if maxI ≤ iter then .ok .Complete
            else .ok .Developing
        | none => fallthru
      else if event = .error then .ok .Failed
      else fallthru
  | .Complete => fallthru
  | .Failed =>
      if event = .error then .ok .Failed
      else fallthru

/-! ## Verdict interpretation (`parseArbiterVerdict`) -/

/-- Uppercase every character (models `String.prototype.toUpperCase` on the
ASCII range, which covers the `NEEDS_WORK` / `PASS` markers). -/
def upperL (l : List Char) : List Char := l.map Char.toUpper

/-- `haystack.includes(needle)`: `needle` occurs contiguously in `haystack`.
An empty needle is found in every string, as in JavaScript. -/
def seqContains (needle : List Char) (hay : List Char) : Bool :=
  match hay with
  | [] => needle.isEmpty
  | _ :: rest => needle.isPrefixOf hay || seqContains needle rest

/-- `parseArbiterVerdict(lastAssistantText)` from `foreman.ts`. -/
def parseArbiterVerdict (lastAssistantText : String) : ArbiterVerdict :=
  let upper := upperL lastAssistantText.toList
  if seqContains "NEEDS_WORK".toList upper then .NeedsWork
  else if seqContains "PASS".toList upper then .Pass
  else .NeedsWork

/-! ## Initial state derivation -/

/-- `Foreman.determineInitialState(status)` from `foreman.ts`: the lookup used
on the live `run` path.  Its `default` branch returns `Idle`. -/
def determineInitialState (status : String) : ForemanState :=
  if status = "ready-for-dev" then .Idle
  else if status = "in-progress" then .Developing
  else if status = "review" then .Reviewing
  else if status = "done" then .Complete
  else .Idle

/-- Task checkbox statistics (`StoryState.taskStats` in `types.ts`). -/
structure TaskStats where
  total : Nat
  completed : Nat
deriving DecidableEq, Repr

/-- `StoryState` from `types.ts`. -/
structure StoryState where
  status : String
  hasReviewSection : Bool
  hasUnresolvedItems : Bool
  taskStats : TaskStats
deriving DecidableEq, Repr

/-- `deriveState(story)` from `story-parser.ts`: throws
`Unknown story status: ...` on an unrecognized token.  (Exported and tested,
but `Foreman.run` uses `determineInitialState` instead.) -/
def deriveState (story : StoryState) : Except String ForemanState :=
  let status := story.status
  if status = "ready-for-dev" then .ok .Idle
  else if status = "in-progress" then .ok .Developing
  else if status = "review" then .ok .Reviewing
  else if status = "done" then .ok .Complete
  else .error ("Unknown story status: " ++ status)

/-! ## C1: Arbitrating verdict transitions -/

/-- C1: in state `Arbitrating` with event `verdict`, for `k, m ≥ 1`:
verdict `NeedsWork` yields `Developing` iff `k < m`, else `Complete`;
verdict `Pass` yields `Complete` regardless of `k` and `m`. -/
theorem arbitrating_verdict_ceiling (k m : Nat) (_hk : 1 ≤ k) (_hm : 1 ≤ m) :
    nextState .Arbitrating .verdict (some .NeedsWork) (some k) (some m) =
      .ok (if k < m then ForemanState.Developing else ForemanState.Complete) ∧
    nextState .Arbitrating .verdict (some .Pass) (some k) (some m) =
      .ok ForemanState.Complete := by
  refine ⟨?_, rfl⟩
  by_cases h : k < m
  · simp [nextState, h, Nat.not_le.mpr h]
  · simp [nextState, h, Nat.le_of_not_lt h]

/-- Witness for C1 at `k = 2`, `m = 3`. -/
theorem arbitrating_verdict_ceiling_witness :
    nextState .Arbitrating .verdict (some .NeedsWork) (some 2) (some 3) =
      .ok (if 2 < 3 then ForemanState.Developing else ForemanState.Complete) ∧
    nextState .Arbitrating .verdict (some .Pass) (some 2) (some 3) =
      .ok ForemanState.Complete :=
  arbitrating_verdict_ceiling 2 3 (by decide) (by decide)

/-! ## C2: error-event transitions -/

/-- C2 counterexample: the claim says every non-terminal state, `Idle`
included, moves to `Failed` on the `error` event; but `nextState` has no
`error` arm in its `Idle` case, so `Idle + error` throws the
`Invalid state transition` error instead of returning `Failed`. -/
theorem idle_error_counterexample :
    nextState .Idle .error none none none =
      .error "Invalid state transition: Idle + error" := by
  rfl

/-- C2 (amended): on the `error` event, `Developing`, `Reviewing` and
`Arbitrating` move to `Failed`, and `Failed` self-loops to `Failed`; `Idle`,
by contrast, throws `IllegalTransitionError` (the `Invalid state transition`
error), as does terminal `Complete`. -/
theorem error_event_transitions (v : Option ArbiterVerdict) (i m : Option Nat) :
    nextState .Developing .error v i m = .ok .Failed ∧
    nextState .Reviewing .error v i m = .ok .Failed ∧
    nextState .Arbitrating .error v i m = .ok .Failed ∧
    nextState .Failed .error v i m = .ok .Failed ∧
    nextState .Idle .error v i m =
      .error (invalidTransitionMsg .Idle .error v) ∧
    nextState .Complete .error v i m =
      .error (invalidTransitionMsg .Complete .error v) := by
  refine ⟨rfl, rfl, ?_, rfl, rfl, rfl⟩
  simp only [nextState]
  rfl

/-! ## C3: initial-state lookup -/

/-- C3 counterexample: the claim says an unrecognized status token makes the
initial-state derivation fail with `UnknownStatusError` rather than return a
state; but `determineInitialState` — the function `run` actually uses —
returns the state `Idle` for the unrecognized token `"unknown-status"`. -/
theorem unknown_status_counterexample :
    determineInitialState "unknown-status" = ForemanState.Idle ∧
    "unknown-status" ≠ "ready-for-dev" ∧ "unknown-status" ≠ "in-progress" ∧
    "unknown-status" ≠ "review" ∧ "unknown-status" ≠ "done" := by
  refine ⟨rfl, ?_, ?_, ?_, ?_⟩ <;> decide

/-- C3 (amended): the initial machine state is produced by the fixed lookup
ready-for-dev → Idle, in-progress → Developing, review → Reviewing,
done → Complete; a status token outside these four maps to `Idle` on the live
path (`determineInitialState`), while the separate `deriveState` helper —
which `run` does not call — fails with the `Unknown story status` error. -/
theorem initial_state_lookup (s : String) (story : StoryState)
    (hs : s ≠ "ready-for-dev" ∧ s ≠ "in-progress" ∧ s ≠ "review" ∧ s ≠ "done")
    (hst : story.status ≠ "ready-for-dev" ∧ story.status ≠ "in-progress" ∧
      story.status ≠ "review" ∧ story.status ≠ "done") :
    determineInitialState "ready-for-dev" = .Idle ∧
    determineInitialState "in-progress" = .Developing ∧
    determineInitialState "review" = .Reviewing ∧
    determineInitialState "done" = .Complete ∧
    determineInitialState s = .Idle ∧
    deriveState story = .error ("Unknown story status: " ++ story.status) := by
  obtain ⟨h1, h2, h3, h4⟩ := hs
  obtain ⟨g1, g2, g3, g4⟩ := hst
  refine ⟨rfl, rfl, rfl, rfl, ?_, ?_⟩
  · simp only [determineInitialState, if_neg h1, if_neg h2, if_neg h3, if_neg h4]
  · simp only [deriveState, if_neg g1, if_neg g2, if_neg g3, if_neg g4]

/-- Witness for C3 (amended) at the token `"blocked"`. -/
theorem initial_state_lookup_witness :
    determineInitialState "blocked" = .Idle ∧
    deriveState ⟨"blocked", false, false, ⟨0, 0⟩⟩ =
      .error ("Unknown story status: " ++ "blocked") := by
  have h := initial_state_lookup "blocked" ⟨"blocked", false, false, ⟨0, 0⟩⟩
    (by refine ⟨?_, ?_, ?_, ?_⟩ <;> decide)
    (by refine ⟨?_, ?_, ?_, ?_⟩ <;> decide)
  exact ⟨h.2.2.2.2.1, h.2.2.2.2.2⟩

/-! ## C4: verdict interpreter -/

/-- C4: `parseArbiterVerdict` returns `NeedsWork` whenever the `NEEDS_WORK`
marker occurs in the uppercased text (even if `PASS` also occurs), `Pass` when
only the `PASS` marker occurs, `NeedsWork` when neither occurs; and the search
is case-insensitive: two inputs with the same uppercasing get the same
verdict. -/
theorem verdict_interpreter_spec (s t : String) :
    (seqContains "NEEDS_WORK".toList (upperL s.toList) = true →
      parseArbiterVerdict s = .NeedsWork) ∧
    (seqContains "NEEDS_WORK".toList (upperL s.toList) = false →
      seqContains "PASS".toList (upperL s.toList) = true →
      parseArbiterVerdict s = .Pass) ∧
    (seqContains "NEEDS_WORK".toList (upperL s.toList) = false →
      seqContains "PASS".toList (upperL s.toList) = false →
      parseArbiterVerdict s = .NeedsWork) ∧
    (upperL s.toList = upperL t.toList →
      parseArbiterVerdict s = parseArbiterVerdict t) := by
  refine ⟨?_, ?_, ?_, ?_⟩
  · intro h; simp only [parseArbiterVerdict, h, if_true]
  · intro h1 h2; simp only [parseArbiterVerdict, h1, h2]; rfl
  · intro h1 h2; simp only [parseArbiterVerdict, h1, h2]; rfl
  · intro h; simp only [parseArbiterVerdict, h]

/-- Witness for C4: `"needs_work"` vs `"NEEDS_WORK"`, and the marker cases. -/
theorem verdict_interpreter_spec_witness :
    parseArbiterVerdict "PASS and NEEDS_WORK" = .NeedsWork ∧
    parseArbiterVerdict "pass" = .Pass ∧
    parseArbiterVerdict "looks fine" = .NeedsWork ∧
    parseArbiterVerdict "needs_work" = parseArbiterVerdict "NEEDS_WORK" := by
  refine ⟨?_, ?_, ?_, ?_⟩
  · exact (verdict_interpreter_spec "PASS and NEEDS_WORK" "").1 (by decide)
  · exact (verdict_interpreter_spec "pass" "").2.1 (by decide) (by decide)
  · exact (verdict_interpreter_spec "looks fine" "").2.2.1 (by decide) (by decide)
  · exact (verdict_interpreter_spec "needs_work" "NEEDS_WORK").2.2.2 (by decide)

/-! ## Story file parsing (`story-parser.ts`) -/

/-- JavaScript's `\s` character class (WhiteSpace + LineTerminator). -/
def jsWhitespace (c : Char) : Bool :=
  c = ' ' || c = '\t' || c = '\n' || c = '\r' || c = '\x0b' || c = '\x0c' ||
  c = ' ' || c = ' ' || (' ' ≤ c && c ≤ ' ') ||
  c = ' ' || c = ' ' || c = ' ' || c = ' ' ||
  c = '　' || c = '﻿'

/-- JavaScript's LineTerminator set: `\n`, `\r`, U+2028, U+2029.  These are
the characters after which the `/m` anchor `^` fires (and before which `$`
fires), and the characters `.` does not match. -/
def jsLineTerminator (c : Char) : Bool :=
  c = '\n' || c = '\r' || c = '\u2028' || c = '\u2029'

/-- JavaScript's `.` (without the `s` flag): any char but a LineTerminator. -/
def jsDot (c : Char) : Bool := !(jsLineTerminator c)

/-- `String.prototype.trim` (strips `\s` on both ends). -/
def jsTrimL (l : List Char) : List Char :=
  ((l.dropWhile jsWhitespace).reverse.dropWhile jsWhitespace).reverse

/-- Split a character list at every LineTerminator char.  The segments start
exactly at the positions where the `/m` anchor `^` holds (position 0 and the
position after each LineTerminator), so an `^`-anchored LineTerminator-free
literal matches the content exactly when some segment starts with it.
(`\r\n` yields an empty segment between the two terminators, where no
nonempty literal can match.) -/
def splitLines : List Char → List (List Char)
  | [] => [[]]
  | c :: rest =>
      if jsLineTerminator c then [] :: splitLines rest
      else
        match splitLines rest with
        | [] => [[c]]
        | h :: t => (c :: h) :: t

/-- One anchored attempt of `Status:\s*(.+)$` at a `^` position, given the
whole remaining input `l` — not just the current line, because the greedy
`\s*` may cross line terminators (they are `\s` chars).  After `Status:`,
the attempt succeeds iff the remainder contains a `.`-matchable char:
* if the remainder has a non-`\s` char, the maximal `\s*` run stops right
  before the first one and `(.+)` captures from there up to the next
  LineTerminator — i.e. `(dropWhile \s).takeWhile .`;
* otherwise (whitespace to the end, with some non-LineTerminator char in
  it), backtracking makes `(.+)` capture a single whitespace char; the
  caller's `.trim()` erases it, so the model's empty capture trims to the
  same status string. -/
def statusAttempt (l : List Char) : Option (List Char) :=
  if "Status:".toList.isPrefixOf l then
    let rest := l.drop 7
    if rest.any jsDot then
      some ((rest.dropWhile jsWhitespace).takeWhile jsDot)
    else none
  else none

/-- Drop the current line: everything up to and including the next
LineTerminator (or everything, if none remains).  Moves a scan from one `^`
position to the next one. -/
def dropLine : List Char → List Char
  | [] => []
  | c :: rest => if jsLineTerminator c then rest else dropLine rest

/-- `content.match(/^Status:\s*(.+)$/m)`: try the anchored attempt at each
`^` position in order and return the first capture.  Fuel bounds the scan;
`dropLine` strictly shrinks a nonempty input, so the input length is enough
fuel. -/
def findStatusGo : Nat → List Char → Option (List Char)
  | 0, _ => none
  | _, [] => none
  | fuel + 1, l =>
      match statusAttempt l with
      | some cap => some cap
      | none => findStatusGo fuel (dropLine l)

/-- `findStatusGo` at full fuel. -/
def findStatus (l : List Char) : Option (List Char) :=
  findStatusGo l.length l

/-- Find `##\s+<lit>` (the section-header pattern) and return the characters
following the literal at its first occurrence.  Since `\s` never matches the
literal's first char, backtracking in `\s+` is vacuous: the literal must
start right after the maximal whitespace run. -/
def headerFindGo (lit : List Char) : Nat → List Char → Option (List Char)
  | 0, _ => none
  | _, [] => none
  | fuel + 1, '#' :: '#' :: rest =>
      let w := rest.takeWhile jsWhitespace
      if !w.isEmpty && lit.isPrefixOf (rest.drop w.length) then
        some ((rest.drop w.length).drop lit.length)
      else headerFindGo lit fuel ('#' :: rest)
  | fuel + 1, _ :: rest => headerFindGo lit fuel rest

/-- `headerFindGo` with enough fuel to scan the whole input (the scan
advances at least one position per step). -/
def headerFind (lit : List Char) (l : List Char) : Option (List Char) :=
  headerFindGo lit l.length l

/-- The lazy capture `([\s\S]*?)(?=\n##\s|$)`: the shortest prefix whose end
is followed by `\n##` plus a `\s` char, or is the end of the input. -/
def lazyCapture : List Char → List Char
  | [] => []
  | c :: rest =>
      match c :: rest with
      | '\n' :: '#' :: '#' :: d :: _ =>
          if jsWhitespace d then [] else c :: lazyCapture rest
      | _ => c :: lazyCapture rest

/-- `- [ ]` / `- [x]` checkbox line predicates (`/^- \[[ x]\]/gm` counts
lines satisfying either; `/^- \[x\]/gm` the checked ones). -/
def isUncheckedBox (l : List Char) : Bool := "- [ ]".toList.isPrefixOf l

/-- Checked checkbox line (`/^- \[x\]/gm`). -/
def isCheckedBox (l : List Char) : Bool := "- [x]".toList.isPrefixOf l

/-- `parseStoryFile(content)` from `story-parser.ts`. -/
def parseStoryFile (content : String) : Except String StoryState :=
  let cs := content.toList
  -- `if (!content || content.trim().length === 0)`
  if jsTrimL cs = [] then .error "Story file content is empty"
  else
    match findStatus cs with
    | none => .error "Story file missing Status field"
    | some cap =>
        let status := String.mk (jsTrimL cap)
        -- `/##\s+Senior Developer Review \(AI\)/.test(content)`
        let hasReviewSection :=
          (headerFind "Senior Developer Review (AI)".toList cs).isSome
        -- `/##\s+Review Follow-ups \(AI\)([\s\S]*?)(?=\n##\s|$)/`
        let hasUnresolvedItems :=
          match headerFind "Review Follow-ups (AI)".toList cs with
          | none => false
          | some tail =>
              let followups := lazyCapture tail
              0 < (splitLines followups).countP isUncheckedBox
        let ls := splitLines cs
        let total := ls.countP (fun l => isUncheckedBox l || isCheckedBox l)
        let completed := ls.countP isCheckedBox
        .ok ⟨status, hasReviewSection, hasUnresolvedItems, ⟨total, completed⟩⟩

/-! ## C9: parseStoryFile -/

/-- The head segment of the LineTerminator split is the input's maximal
`.`-matchable prefix. -/
theorem splitLines_head (l : List Char) :
    ∃ t, splitLines l = l.takeWhile jsDot :: t := by
  induction l with
  | nil => exact ⟨[], rfl⟩
  | cons c rest ih =>
      by_cases hc : jsLineTerminator c
      · refine ⟨splitLines rest, ?_⟩
        have hd : jsDot c = false := by simp [jsDot, hc]
        simp [splitLines, hc, List.takeWhile_cons, hd]
      · obtain ⟨t, ht⟩ := ih
        refine ⟨t, ?_⟩
        have hd : jsDot c = true := by simp [jsDot, hc]
        simp [splitLines, hc, ht, List.takeWhile_cons, hd]

/-- A prefix made of `.`-matchable chars survives `takeWhile jsDot`. -/
theorem isPrefixOf_takeWhile {pre : List Char} (l : List Char)
    (hall : ∀ c ∈ pre, jsDot c = true) (h : pre.isPrefixOf l = true) :
    pre.isPrefixOf (l.takeWhile jsDot) = true := by
  induction pre generalizing l with
  | nil => simp
  | cons p ps ih =>
      cases l with
      | nil => simp at h
      | cons c rest =>
          simp only [List.isPrefixOf_cons₂, Bool.and_eq_true, beq_iff_eq] at h
          obtain ⟨hpc, hrest⟩ := h
          subst hpc
          have hd : jsDot p = true := hall p (List.mem_cons_self p ps)
          rw [List.takeWhile_cons_of_pos hd]
          simp only [List.isPrefixOf_cons₂, Bool.and_eq_true, beq_iff_eq]
          exact ⟨trivial, ih _ (fun c hc => hall c (List.mem_cons_of_mem p hc)) hrest⟩

/-- Advancing the scan with `dropLine` only ever visits later segments of the
split (or the empty segment at the very end). -/
theorem dropLine_segs (l : List Char) :
    ∀ seg ∈ splitLines (dropLine l), seg ∈ (splitLines l).tail ∨ seg = [] := by
  induction l with
  | nil =>
      intro seg hseg
      right
      simpa [dropLine, splitLines] using hseg
  | cons c rest ih =>
      intro seg hseg
      by_cases hc : jsLineTerminator c
      · left
        simp only [dropLine, hc, if_true] at hseg
        simp only [splitLines, hc, if_true, List.tail_cons]
        exact hseg
      · simp only [dropLine, hc, if_false] at hseg
        rcases ih seg hseg with hmem | hnil
        · left
          obtain ⟨t, ht⟩ := splitLines_head rest
          rw [ht, List.tail_cons] at hmem
          simp only [splitLines, hc, if_false, ht, List.tail_cons]
          exact hmem
        · right
          exact hnil

/-- If no segment of the split starts with `Status:`, the anchored scan finds
no match at any `^` position. -/
theorem findStatusGo_none (fuel : Nat) (l : List Char)
    (h : ∀ seg ∈ splitLines l, ¬ "Status:".toList.isPrefixOf seg) :
    findStatusGo fuel l = none := by
  induction fuel generalizing l with
  | zero => cases l <;> rfl
  | succ fuel ih =>
      cases l with
      | nil => rfl
      | cons c rest =>
          have hatt : statusAttempt (c :: rest) = none := by
            simp only [statusAttempt]
            rw [if_neg ?hnp]
            case hnp =>
              intro hpre
              obtain ⟨t, ht⟩ := splitLines_head (c :: rest)
              exact h _ (ht ▸ List.mem_cons_self _ _)
                (isPrefixOf_takeWhile _ (by decide) hpre)
          simp only [findStatusGo, hatt]
          refine ih (dropLine (c :: rest)) ?_
          intro seg hseg
          rcases dropLine_segs (c :: rest) seg hseg with hmem | hnil
          · obtain ⟨t, ht⟩ := splitLines_head (c :: rest)
            rw [ht, List.tail_cons] at hmem
            exact h seg (ht ▸ List.mem_cons_of_mem _ hmem)
          · subst hnil
            intro habs
            simp [List.isPrefixOf] at habs

/-- C9: whenever `parseStoryFile` accepts a content string, the returned task
statistics satisfy `completed ≤ total` (checked checkbox lines are a subset
of all checkbox lines); an input that is empty after trimming, or none of
whose lines (in the LineTerminator-split sense of the `/m` anchors) starts
with `Status:`, is rejected with the corresponding error. -/
theorem parseStoryFile_spec (c : String) (s : StoryState)
    (hok : parseStoryFile c = .ok s)
    (d : String) (hd : jsTrimL d.toList = [])
    (e : String)
    (he : ∀ l ∈ splitLines e.toList, ¬ "Status:".toList.isPrefixOf l) :
    s.taskStats.completed ≤ s.taskStats.total ∧
    parseStoryFile d = .error "Story file content is empty" ∧
    (parseStoryFile e).isOk = false := by
  refine ⟨?_, ?_, ?_⟩
  · simp only [parseStoryFile] at hok
    split at hok
    · exact absurd hok (by simp)
    · rcases hfs : findStatus c.toList with _ | cap
      · rw [hfs] at hok; exact absurd hok (by simp)
      · rw [hfs] at hok
        simp only [Except.ok.injEq] at hok
        subst hok
        exact List.countP_mono_left (fun l _ h => by
          simp only [Bool.or_eq_true]; exact Or.inr h)
  · simp only [parseStoryFile, hd, if_pos]
  · simp only [parseStoryFile]
    split
    · rfl
    · rw [show findStatus e.toList = none from
        findStatusGo_none e.toList.length e.toList he]
      rfl

/-- Witness for C9: a story file with one checked and one unchecked checkbox,
a whitespace-only input, and an input without any `Status:` line. -/
theorem parseStoryFile_spec_witness :
    (parseStoryFile "Status: done\n- [x] a\n- [ ] b" =
      .ok ⟨"done", false, false, ⟨2, 1⟩⟩ → (1 : Nat) ≤ 2) ∧
    parseStoryFile "  \n " = .error "Story file content is empty" ∧
    (parseStoryFile "no status here").isOk = false := by
  have h := parseStoryFile_spec "Status: done\n- [x] a\n- [ ] b"
    ⟨"done", false, false, ⟨2, 1⟩⟩ (by rfl) "  \n " (by decide)
    "no status here" (by decide)
  exact ⟨fun _ => h.1, h.2.1, h.2.2⟩

/-! ## Interactive prompt detection (`detectAndAutoAnswer` in `foreman.ts`) -/

/-- One attempt of `/(\d+)[).]\s+\S/` at the head of `l`: a maximal digit run
(`\d+` cannot usefully backtrack, since no digit is `)` or `.`), one of
`)`/`.`, a maximal whitespace run (ditto: `\s+` backtracking never reaches a
`\S`), and one non-whitespace char.  Returns the capture (the digits) and the
number of consumed chars. -/
def matchNumberedAt (l : List Char) : Option (String × Nat) :=
  let ds := l.takeWhile Char.isDigit
  if ds.isEmpty then none
  else
    match l.drop ds.length with
    | [] => none
    | b :: rest =>
        if b = ')' || b = '.' then
          let ws := rest.takeWhile jsWhitespace
          if ws.isEmpty then none
          else
            match rest.drop ws.length with
            | [] => none
            | _ :: _ => some (String.mk ds, ds.length + 1 + ws.length + 1)
        else none

/-- The global scan of `/(\d+)[).]\s+\S/g`: try a match at each position; on
success record the capture and resume after the consumed chars (`lastIndex`),
else advance one position.  Fuel bounds the scan; one unit per position. -/
def scanGo : Nat → List Char → List String
  | 0, _ => []
  | _, [] => []
  | fuel + 1, l@(_ :: rest) =>
      match matchNumberedAt l with
      | some (cap, n) => cap :: scanGo fuel (l.drop n)
      | none => scanGo fuel rest

/-- All captures of `/(\d+)[).]\s+\S/g` over the input (each step of the scan
consumes at least one char, so `l.length` fuel suffices). -/
def scanCaptures (l : List Char) : List String := scanGo l.length l

/-- Case-insensitive `(y/n)` head (the optional `(?:\(y\/n\))?` group under
the `i` flag). -/
def ynHead : List Char → Option (List Char)
  | '(' :: y :: '/' :: n :: ')' :: rest =>
      if (y = 'y' || y = 'Y') && (n = 'n' || n = 'N') then some rest else none
  | _ => none

/-- Match `\s*(?:\(y\/n\))?[\s]*$` against the whole remainder after a `?`:
the greedy `\s*` runs to the first non-whitespace char, so either everything
is whitespace, or `(y/n)` starts right there and only whitespace follows. -/
def confirmSuffix (l : List Char) : Bool :=
  let l1 := l.dropWhile jsWhitespace
  match ynHead l1 with
  | some rest => rest.all jsWhitespace
  | none => l1.isEmpty

/-- The first alternative `\?\s*(?:\(y\/n\))?[\s]*$` of the confirmation
regex: some `?` in the text is followed only by optional whitespace and an
optional `(y/n)` up to the end of the input. -/
def confirmQEnd : List Char → Bool
  | [] => false
  | c :: rest => (if c = '?' then confirmSuffix rest else false) || confirmQEnd rest

/-- `/\?\s*(?:\(y\/n\))?[\s]*$|proceed\?|confirm\?|continue\?|ready\?|correct\?/i`
`.test(lastMessage)`. -/
def confirmTest (s : String) : Bool :=
  let u := upperL s.toList
  confirmQEnd s.toList ||
  seqContains "PROCEED?".toList u || seqContains "CONFIRM?".toList u ||
  seqContains "CONTINUE?".toList u || seqContains "READY?".toList u ||
  seqContains "CORRECT?".toList u

/-- Result of the prompt detector: either no auto-answer, or the reply text
sent via `sendAutoAnswer`. -/
inductive AutoReply where
  | noReply
  | reply (answer : String)
deriving DecidableEq, Repr

/-- The pure decision core of `detectAndAutoAnswer(sessionId)`: from the last
assistant message, decide whether to auto-answer and with what text.
An empty message (`if (!lastMessage) return false`) never answers; two or
more matches of the numbered pattern answer with the last match's capture
(`matches[matches.length - 1][1]`); otherwise a confirmation match answers
`"y"`. -/
def classify (lastMessage : String) : AutoReply :=
  if lastMessage = "" then .noReply
  else
    let ms := scanCaptures lastMessage.toList
    if 2 ≤ ms.length then .reply (ms.getLastD "")
    else if confirmTest lastMessage then .reply "y"
    else .noReply

/-! Helper lemmas about the detector's scanners. -/

theorem charOfNat_toNat {k : Nat} (h : k.isValidChar) :
    (Char.ofNat k).toNat = k := by
  rw [Char.ofNat, dif_pos h]
  rfl

/-- Only `?` itself uppercases to `?`. -/
theorem toUpper_eq_qm (c : Char) (h : Char.toUpper c = '?') : c = '?' := by
  by_cases hc : c.toNat ≥ 97 ∧ c.toNat ≤ 122
  · exfalso
    simp only [Char.toUpper, if_pos hc] at h
    have hval : (Char.ofNat (c.toNat - 32)).toNat = Char.toNat '?' :=
      congrArg Char.toNat h
    have hv : (c.toNat - 32).isValidChar := Or.inl (by omega)
    have h63 : Char.toNat '?' = 63 := rfl
    rw [charOfNat_toNat hv, h63] at hval
    omega
  · simp only [Char.toUpper, if_neg hc] at h
    exact h

theorem qm_mem_of_upperL {l : List Char} (h : '?' ∈ upperL l) : '?' ∈ l := by
  simp only [upperL, List.mem_map] at h
  obtain ⟨c, hc, hcu⟩ := h
  exact (toUpper_eq_qm c hcu) ▸ hc

theorem seqContains_subset {needle hay : List Char}
    (h : seqContains needle hay = true) : ∀ c ∈ needle, c ∈ hay := by
  induction hay with
  | nil =>
      intro c hc
      simp only [seqContains, List.isEmpty_iff] at h
      subst h
      cases hc
  | cons a rest ih =>
      intro c hc
      simp only [seqContains, Bool.or_eq_true] at h
      rcases h with h | h
      · exact (List.isPrefixOf_iff_prefix.mp h).sublist.subset hc
      · exact List.mem_cons_of_mem a (ih h c hc)

theorem confirmQEnd_eq_false {l : List Char} (h : ¬ '?' ∈ l) :
    confirmQEnd l = false := by
  induction l with
  | nil => rfl
  | cons c rest ih =>
      have hc : c ≠ '?' := fun he => h (he ▸ List.mem_cons_self c rest)
      have hrest : ¬ '?' ∈ rest := fun hm => h (List.mem_cons_of_mem c hm)
      simp only [confirmQEnd, if_neg hc, Bool.false_or]
      exact ih hrest

/-- A text without `?` never fires the confirmation regex. -/
theorem confirmTest_eq_false {s : String} (hq : ¬ '?' ∈ s.toList) :
    confirmTest s = false := by
  have hw : ∀ nd : List Char, '?' ∈ nd →
      seqContains nd (upperL s.toList) = false := by
    intro nd hnd
    cases hsc : seqContains nd (upperL s.toList) with
    | false => rfl
    | true => exact absurd (qm_mem_of_upperL (seqContains_subset hsc '?' hnd)) hq
  simp only [confirmTest, confirmQEnd_eq_false hq,
    hw "PROCEED?".toList (by decide), hw "CONFIRM?".toList (by decide),
    hw "CONTINUE?".toList (by decide), hw "READY?".toList (by decide),
    hw "CORRECT?".toList (by decide), Bool.or_self, Bool.or_false]

/-! ## C7: menu-prompt detection -/

/-- C7 counterexample.  First input: three numbered-option lines in the order
1, 3, 2 — the claim says the auto-reply is the highest-numbered option
(`"3"`), but the code replies with the capture of the *last* match (`"2"`).
Second input: a single line containing two inline `N)` matches and no
confirmation phrase — by the claim a text with at most one numbered-option
line and no confirmation phrase gets no auto-reply, but the code's pattern is
not line-anchored and an auto-reply `"2"` is sent. -/
theorem numbered_menu_counterexample :
    classify "1) foo\n3) bar\n2) baz" = .reply "2" ∧
    classify "1) foo\n3) bar\n2) baz" ≠ .reply "3" ∧
    classify "pick 1) alpha 2) beta" = .reply "2" := by
  refine ⟨by decide, by decide, by decide⟩

/-- C7 (amended): with two or more matches of the numbered-option pattern
anywhere in the text (not per line), the detector classifies a menu prompt
and the auto-reply is the capture of the last match in scan order (which is
the highest number exactly when the options appear in ascending order); with
at most one match, a text without any `?` character (hence without a
confirmation phrase) is classified as genuine completion: no auto-reply. -/
theorem numbered_menu_classify (msg : String)
    (h2 : 2 ≤ (scanCaptures msg.toList).length)
    (msg' : String) (h1 : (scanCaptures msg'.toList).length ≤ 1)
    (hq : ¬ '?' ∈ msg'.toList) :
    classify msg = .reply ((scanCaptures msg.toList).getLastD "") ∧
    classify msg' = .noReply := by
  constructor
  · have hne : msg ≠ "" := by
      intro h
      subst h
      simp [scanCaptures, scanGo] at h2
    simp only [classify, if_neg hne, if_pos h2]
  · by_cases hne : msg' = ""
    · simp only [classify, if_pos hne]
    · have hlt : ¬ 2 ≤ (scanCaptures msg'.toList).length := by omega
      simp only [classify, if_neg hne, if_neg hlt, confirmTest_eq_false hq,
        Bool.false_eq_true, if_false]

/-- Witness for C7 (amended): an ascending two-option menu gets the reply
`"2"`; a plain sentence gets none. -/
theorem numbered_menu_classify_witness :
    classify "1) retry\n2) skip" = .reply "2" ∧
    classify "All tasks are complete." = .noReply := by
  have h := numbered_menu_classify "1) retry\n2) skip" (by decide)
    "All tasks are complete." (by decide) (by decide)
  exact ⟨h.1, h.2⟩

/-! ## Configuration (`types.ts`, defaults in `config.ts`) -/

/-- Per-role configuration (`RoleConfig` in `types.ts`): `model` is a
`provider/model` string, `agent` an agent name. -/
structure RoleConfig where
  model : String
  agent : String
deriving DecidableEq, Repr

/-- `ForemanConfig` from `types.ts` (the `roles` record is flattened into the
three per-role fields).  `pollBudget` abstracts wall-clock time in
`waitForSession`: the number of iterations of the
`while (Date.now() - startTime < role_timeout_ms)` loop that the timeout
admits (each iteration sleeps `pollIntervalMs`). -/
structure ForemanConfig where
  stories_dir : String
  sprint_status : String
  max_iterations : Nat
  contexts : List String
  developer : RoleConfig
  reviewer : RoleConfig
  arbiter : RoleConfig
  role_timeout_ms : Nat
  pollBudget : Nat
deriving DecidableEq, Repr

/-- `SessionInfo` from `types.ts` (`startedAt`, a wall-clock `Date`, is
elided: no claim concerns elapsed time). -/
structure SessionInfo where
  sessionId : String
  role : Role
  storyId : String
deriving DecidableEq, Repr

/-- One session status from `client.session.status()`: `idle`, `busy` or
`retry` (the `attempt`/`message`/`next` payload of `retry` is never read by
the orchestrator and is elided). -/
inductive SessStatus where
  | idle
  | busy
  | retry
deriving DecidableEq, Repr

/-- One message part (`{type?, text?}`) from `client.session.messages()`. -/
structure MsgPart where
  type : String
  text : Option String
deriving DecidableEq, Repr

/-- One message: `role` models `info?.role`, `parts` models `parts ?? []`. -/
structure Msg where
  role : Option String
  parts : List MsgPart
deriving DecidableEq, Repr

/-- Deterministic environment of remote responses: the value each client call
returns, indexed by how many calls of that kind have happened before
(`session.create` by create count, `session.status` by poll count,
`session.messages` by fetch count), plus the file system
(`fs.readdirSync` / `fs.promises.readFile`) seen by the story parser. -/
structure Env where
  createIds : Nat → Option String
  statusAt : Nat → List (String × SessStatus)
  messagesAt : Nat → String → List Msg
  dirFiles : String → List String
  fileContent : String → String

/-- Call counters plus every externally visible effect of a run: prompts sent
through `promptAsync` (instructions and auto-answers), aborted sessions,
created session titles, and progress-callback titles. -/
structure World where
  createCount : Nat
  statusCount : Nat
  msgCount : Nat
  prompts : List (String × String)
  aborted : List String
  created : List String
  progress : List String
deriving DecidableEq, Repr

/-- The mutable fields of the `Foreman` class. -/
structure Foreman where
  config : ForemanConfig
  state : ForemanState
  currentStoryId : Option String
  iteration : Nat
  isRunning : Bool
  managedSessions : List (String × SessionInfo)
  storyPath : Option String
  taskStats : Option TaskStats
deriving DecidableEq, Repr

/-- Template-literal rendering of a nullable string (`null` prints as
`"null"` inside `` `${...}` ``). -/
def showNullable : Option String → String
  | some s => s
  | none => "null"

/-- `Array.prototype.join("\n")`. -/
def joinNL : List String → String
  | [] => ""
  | [s] => s
  | s :: rest => s ++ "\n" ++ joinNL rest

/-! ## Prompt builders (`prompts/developer.ts`, `reviewer.ts`, `arbiter.ts`) -/

/-- `buildDeveloperPrompt(storyPath, isFollowUp)`. -/
def buildDeveloperPrompt (storyPath : String) (isFollowUp : Bool) : String :=
  let basePrompt := "Run /bmad:bmm:dev-story " ++ storyPath ++
    "\n\nThe workflow will ask interactive questions.\n- Answer \"y\" to confirmations.\nDo not wait for user input."
  if isFollowUp then
    basePrompt ++
      "\n\nNOTE: This is a follow-up iteration. Address any remaining action items from the review before proceeding with new work."
  else basePrompt

/-- `buildReviewerPrompt(storyPath)`. -/
def buildReviewerPrompt (storyPath : String) : String :=
  "Run /bmad:bmm:code-review " ++ storyPath ++
    "\n\nThe workflow will ask interactive questions.\n- First confirmation: answer \"y\"\n- Second confirmation: answer \"y\"\n- When asked to select action: answer \"2\" (create action items)\nDo not wait for user input."

/-- `buildArbiterPrompt(storyPath, contextFiles, iteration, maxIterations)`. -/
def buildArbiterPrompt (storyPath : String) (contextFiles : List String)
    (iteration maxIterations : Nat) : String :=
  let contextSection :=
    if 0 < contextFiles.length then
      "\n\nContext files to review:\n" ++
        joinNL (contextFiles.map (fun f => "- " ++ f))
    else ""
  "Review the story file: " ++ storyPath ++ contextSection ++
    "\n\nIteration: " ++ toString iteration ++ " of " ++
    toString maxIterations ++
    "\n\nYour task is to judge whether the implementation satisfies the acceptance criteria.\n\nRespond with one of:\n- PASS: The implementation satisfies all acceptance criteria and any review action items are resolved.\n- NEEDS_WORK: Further development is needed. The implementation does not yet meet the criteria.\n\nNote: This is iteration " ++
    toString iteration ++
    ". Consider diminishing returns when evaluating whether changes are truly necessary."

/-! ## Story path resolution (`resolveStoryPath` in `story-parser.ts`) -/

/-- Insertion step of a lexicographic sort (models `Array.prototype.sort()`
on the matched file names). -/
def insertSorted (s : String) : List String → List String
  | [] => [s]
  | x :: rest => if s ≤ x then s :: x :: rest else x :: insertSorted s rest

/-- Sort file names (models `matches.sort()`). -/
def sortStrs : List String → List String
  | [] => []
  | x :: rest => insertSorted x (sortStrs rest)

/-- `^${escapeRegex(storyId)}-.*\.md$` on a file name: the escaped id is a
literal, so the name starts with `storyId-`, ends with `.md`, and is long
enough that the two parts do not overlap. -/
def matchesStoryFile (storyId fname : String) : Bool :=
  (storyId ++ "-").toList.isPrefixOf fname.toList &&
  ".md".toList.isSuffixOf fname.toList &&
  storyId.toList.length + 4 ≤ fname.toList.length

/-- `resolveStoryPath(storiesDir, storyId)`: filter the directory listing,
sort, take the first (on multiple matches the code logs a warning and still
takes the first); `path.join` is modelled as `/`-concatenation. -/
def resolveStoryPath (files : List String) (storiesDir storyId : String) :
    Except String String :=
  let ms := sortStrs (files.filter (matchesStoryFile storyId))
  match ms with
  | [] => .error ("No story file found for ID: " ++ storyId)
  | m :: _ => .ok (storiesDir ++ "/" ++ m)

/-! ## Session lifecycle (`Foreman` methods) -/

/-- `getLastAssistantMessage(sessionId)`: walk messages from the last; the
first assistant message with nonempty text parts yields their
`"\n"`-join; else `""`.  Operates on the reversed list. -/
def assistantTextFromRev : List Msg → String
  | [] => ""
  | m :: rest =>
      if m.role = some "assistant" then
        let tp := m.parts.filterMap (fun p => if p.type = "text" then p.text else none)
        if tp.isEmpty then assistantTextFromRev rest
        else joinNL tp
      else assistantTextFromRev rest

/-- The text `getLastAssistantMessage` extracts from a message list. -/
def lastAssistantText (msgs : List Msg) : String :=
  assistantTextFromRev msgs.reverse

/-- Effectful `getLastAssistantMessage`: one `session.messages()` call. -/
def getLastAssistantMessage (env : Env) (sid : String) (w : World) :
    String × World :=
  (lastAssistantText (env.messagesAt w.msgCount sid),
    {w with msgCount := w.msgCount + 1})

/-- `detectAndAutoAnswer(sessionId)`: fetch the last assistant message,
classify it, and send the auto-answer if one is due.  Returns `wasQuestion`. -/
def detectAndAutoAnswer (env : Env) (sid : String) (w : World) :
    Bool × World :=
  let (lastMessage, w1) := getLastAssistantMessage env sid w
  match classify lastMessage with
  | .noReply => (false, w1)
  | .reply ans => (true, {w1 with prompts := w1.prompts ++ [(sid, ans)]})

/-- `` `Session ${sessionId} timed out after ${role_timeout_ms}ms` ``. -/
def timeoutMsg (sid : String) (ms : Nat) : String :=
  "Session " ++ sid ++ " timed out after " ++ toString ms ++ "ms"

/-- `` `Too many auto-answers (${maxAutoAnswers}) for session ${sessionId}` ``
with `maxAutoAnswers = 10`. -/
def tooManyMsg (sid : String) : String :=
  "Too many auto-answers (10) for session " ++ sid

/-- `waitForSession(sessionId)`: poll `session.status()` every tick.  A
missing entry or `idle` is a completion candidate, checked by
`detectAndAutoAnswer`; a detected question sends an answer, bumps the
auto-answer count (fatal beyond `maxAutoAnswers = 10`) and keeps polling;
`retry` and `busy` keep polling.  When the budget (the wall-clock timeout) is
exhausted the session is aborted and the step fails. -/
def waitForSession (cfg : ForemanConfig) (env : Env) (sid : String) :
    Nat → Nat → World → Except String Unit × World
  | 0, _, w =>
      (.error (timeoutMsg sid cfg.role_timeout_ms),
        {w with aborted := w.aborted ++ [sid]})
  | budget + 1, autoAnswerCount, w =>
      let w1 := {w with statusCount := w.statusCount + 1}
      match List.lookup sid (env.statusAt w.statusCount) with
      | none | some .idle =>
          let (wasQuestion, w2) := detectAndAutoAnswer env sid w1
          if wasQuestion then
            let ac := autoAnswerCount + 1
            if 10 < ac then (.error (tooManyMsg sid), w2)
            else waitForSession cfg env sid budget ac w2
          else (.ok (), w2)
      | some .retry => waitForSession cfg env sid budget autoAnswerCount w1
      | some .busy => waitForSession cfg env sid budget autoAnswerCount w1

/-- `Map.prototype.set`: replace in place or append. -/
def mapSet : List (String × SessionInfo) → String → SessionInfo →
    List (String × SessionInfo)
  | [], k, v => [(k, v)]
  | (k', v') :: rest, k, v =>
      if k' = k then (k, v) :: rest else (k', v') :: mapSet rest k v

/-- `createSession(title, role)`: one `session.create` call; a missing id is
fatal; otherwise the session is tracked in `managedSessions`.  The
`this.currentStoryId!` non-null assertion is modelled by `getD ""`. -/
def createSession (f : Foreman) (env : Env) (w : World) (title : String)
    (role : Role) : Except String String × Foreman × World :=
  let w1 := {w with createCount := w.createCount + 1,
                    created := w.created ++ [title]}
  match env.createIds w.createCount with
  | none =>
      (.error ("Failed to create " ++ role.str ++
        " session: no session ID returned"), f, w1)
  | some sid =>
      let info : SessionInfo := ⟨sid, role, f.currentStoryId.getD ""⟩
      (.ok sid, {f with managedSessions := mapSet f.managedSessions sid info}, w1)

/-- `parseModel(model)`: split at the first `/`. -/
def splitAtFirst (c : Char) : List Char → Option (List Char × List Char)
  | [] => none
  | x :: rest =>
      if x = c then some ([], rest)
      else
        match splitAtFirst c rest with
        | none => none
        | some (a, b) => some (x :: a, b)

/-- `parseModel(model)` from `foreman.ts`. -/
def parseModel (model : String) : Except String (String × String) :=
  match splitAtFirst '/' model.toList with
  | none =>
      .error ("Invalid model format \"" ++ model ++
        "\": expected \"provider/model\"")
  | some (a, b) => .ok (String.mk a, String.mk b)

/-- `sendPrompt(sessionId, promptText, roleConfig)`: parse the model selector
(fatal if malformed) and deliver the prompt. -/
def sendPrompt (w : World) (sid promptText : String) (rc : RoleConfig) :
    Except String Unit × World :=
  match parseModel rc.model with
  | .error e => (.error e, w)
  | .ok _ => (.ok (), {w with prompts := w.prompts ++ [(sid, promptText)]})

/-! ## Role steps and the run loop (`Foreman.run` and helpers) -/

/-- `runDeveloperSession(isFollowUp)`: create, prompt, wait, then advance the
machine state with `developmentComplete`. -/
def runDeveloperSession (f : Foreman) (env : Env) (w : World)
    (isFollowUp : Bool) : Except String Unit × Foreman × World :=
  let title := "foreman:developer:" ++ showNullable f.currentStoryId ++
    ":iter" ++ toString f.iteration
  match createSession f env w title .Developer with
  | (.error e, f1, w1) => (.error e, f1, w1)
  | (.ok sid, f1, w1) =>
      let prompt := buildDeveloperPrompt (f1.storyPath.getD "") isFollowUp
      match sendPrompt w1 sid prompt f1.config.developer with
      | (.error e, w2) => (.error e, f1, w2)
      | (.ok _, w2) =>
          match waitForSession f1.config env sid f1.config.pollBudget 0 w2 with
          | (.error e, w3) => (.error e, f1, w3)
          | (.ok _, w3) =>
              match nextState f1.state .developmentComplete none
                  (some f1.iteration) (some f1.config.max_iterations) with
              | .error e => (.error e, f1, w3)
              | .ok s => (.ok (), {f1 with state := s}, w3)

/-- `runReviewerSession()`. -/
def runReviewerSession (f : Foreman) (env : Env) (w : World) :
    Except String Unit × Foreman × World :=
  let title := "foreman:reviewer:" ++ showNullable f.currentStoryId ++
    ":iter" ++ toString f.iteration
  match createSession f env w title .Reviewer with
  | (.error e, f1, w1) => (.error e, f1, w1)
  | (.ok sid, f1, w1) =>
      let prompt := buildReviewerPrompt (f1.storyPath.getD "")
      match sendPrompt w1 sid prompt f1.config.reviewer with
      | (.error e, w2) => (.error e, f1, w2)
      | (.ok _, w2) =>
          match waitForSession f1.config env sid f1.config.pollBudget 0 w2 with
          | (.error e, w3) => (.error e, f1, w3)
          | (.ok _, w3) =>
              match nextState f1.state .reviewComplete none
                  (some f1.iteration) (some f1.config.max_iterations) with
              | .error e => (.error e, f1, w3)
              | .ok s => (.ok (), {f1 with state := s}, w3)

/-- The first half of `runArbiterSession()`: create, prompt, wait, fetch the
last assistant text.  Split out so the verdict handling below can be stated
against the fetched text. -/
def arbiterSetup (f : Foreman) (env : Env) (w : World) :
    Except String (String × String) × Foreman × World :=
  let title := "foreman:arbiter:" ++ showNullable f.currentStoryId ++
    ":iter" ++ toString f.iteration
  match createSession f env w title .Arbiter with
  | (.error e, f1, w1) => (.error e, f1, w1)
  | (.ok sid, f1, w1) =>
      let prompt := buildArbiterPrompt (f1.storyPath.getD "")
        f1.config.contexts f1.iteration f1.config.max_iterations
      match sendPrompt w1 sid prompt f1.config.arbiter with
      | (.error e, w2) => (.error e, f1, w2)
      | (.ok _, w2) =>
          match waitForSession f1.config env sid f1.config.pollBudget 0 w2 with
          | (.error e, w3) => (.error e, f1, w3)
          | (.ok _, w3) =>
              let (text, w4) := getLastAssistantMessage env sid w3
              (.ok (sid, text), f1, w4)

/-- `runArbiterSession()`: after the setup, interpret the verdict, advance
the machine state, and bump the iteration counter exactly when the verdict is
`NeedsWork` and the new state is `Developing`. -/
def runArbiterSession (f : Foreman) (env : Env) (w : World) :
    Except String Unit × Foreman × World :=
  match arbiterSetup f env w with
  | (.error e, f1, w1) => (.error e, f1, w1)
  | (.ok (_, text), f1, w1) =>
      let verdict := parseArbiterVerdict text
      match nextState f1.state .verdict (some verdict) (some f1.iteration)
          (some f1.config.max_iterations) with
      | .error e => (.error e, f1, w1)
      | .ok s =>
          let f2 := {f1 with state := s}
          if verdict = .NeedsWork ∧ f2.state = .Developing then
            (.ok (), {f2 with iteration := f2.iteration + 1}, w1)
          else (.ok (), f2, w1)

/-- Record one progress-callback title (`onProgress?.({title, metadata})`;
the metadata record is elided). -/
def pushProgress (w : World) (t : String) : World :=
  {w with progress := w.progress ++ [t]}

/-- The `while` loop of `run`, with fuel: loop while the state is
non-terminal, dispatching each state to its step.  Out of fuel is a modelling
artifact standing for a still-running loop (every actual exit of the loop is
reached at some finite fuel). -/
def runLoop (env : Env) : Nat → Foreman → World →
    Except String Unit × Foreman × World
  | 0, f, w => (.error "[model] loop fuel exhausted", f, w)
  | fuel + 1, f, w =>
      match f.state with
      | .Complete => (.ok (), f, w)
      | .Failed => (.ok (), f, w)
      | .Idle =>
          match nextState f.state .startDeveloping none none none with
          | .error e => (.error e, f, w)
          | .ok s => runLoop env fuel {f with state := s} w
      | .Developing =>
          let w1 := pushProgress w ("Developing (iter " ++
            toString f.iteration ++ "/" ++ toString f.config.max_iterations ++ ")")
          match runDeveloperSession f env w1 (decide (1 < f.iteration)) with
          | (.error e, f1, w2) => (.error e, f1, w2)
          | (.ok _, f1, w2) => runLoop env fuel f1 w2
      | .Reviewing =>
          let w1 := pushProgress w ("Reviewing (iter " ++
            toString f.iteration ++ "/" ++ toString f.config.max_iterations ++ ")")
          match runReviewerSession f env w1 with
          | (.error e, f1, w2) => (.error e, f1, w2)
          | (.ok _, f1, w2) => runLoop env fuel f1 w2
      | .Arbitrating =>
          let w1 := pushProgress w ("Arbitrating (iter " ++
            toString f.iteration ++ "/" ++ toString f.config.max_iterations ++ ")")
          match runArbiterSession f env w1 with
          | (.error e, f1, w2) => (.error e, f1, w2)
          | (.ok _, f1, w2) => runLoop env fuel f1 w2

/-- `cleanup()`: clear session tracking, release the single-flight guard,
drop the story path and task stats.  (`state`, `currentStoryId` and
`iteration` are deliberately not reset.) -/
def cleanup (f : Foreman) : Foreman :=
  {f with managedSessions := [], isRunning := false, storyPath := none,
          taskStats := none}

/-- The assignments `run` performs before its `try` block:
`isRunning = true; currentStoryId = storyId; iteration = 1`. -/
def runStart (f : Foreman) (storyId : String) : Foreman :=
  {f with isRunning := true, currentStoryId := some storyId, iteration := 1}

/-- The body of `run`'s `try` block: resolve the story path, parse the story,
derive the initial state, loop to a terminal state, and emit the final
progress notification and result sentence. -/
def runTry (f : Foreman) (env : Env) (w : World) (storyId : String)
    (fuel : Nat) : Except String String × Foreman × World :=
  match resolveStoryPath (env.dirFiles f.config.stories_dir)
      f.config.stories_dir storyId with
  | .error e => (.error e, f, w)
  | .ok p =>
      let f1 := {f with storyPath := some p}
      match parseStoryFile (env.fileContent p) with
      | .error e => (.error e, f1, w)
      | .ok storyState =>
          let f2 := {f1 with taskStats := some storyState.taskStats,
                             state := determineInitialState storyState.status}
          match runLoop env fuel f2 w with
          | (.error e, f3, w3) => (.error e, f3, w3)
          | (.ok _, f3, w3) =>
              let w4 := pushProgress w3 (if f3.state = .Complete then
                  "Complete — Story " ++ storyId
                else "Failed — Story " ++ storyId)
              ((if f3.state = .Complete then
                  .ok ("Story " ++ storyId ++ " completed successfully")
                else .ok ("Story " ++ storyId ++ " failed")), f3, w4)

/-- `run(storyId)`: reject immediately when a run is active (before touching
any state); otherwise set the single-flight guard and run the body, with
`cleanup()` applied on every exit of the `try` (the `finally`). -/
def Foreman.run (f : Foreman) (env : Env) (w : World) (storyId : String)
    (fuel : Nat) : Except String String × Foreman × World :=
  if f.isRunning then
    (.error ("Foreman busy with story " ++ showNullable f.currentStoryId), f, w)
  else
    match runTry (runStart f storyId) env w storyId fuel with
    | (r, f2, w2) => (r, cleanup f2, w2)

/-! ## C5: single-flight guard and cleanup -/

/-- C5: invoking `run` while a run is active fails immediately with the
busy error naming the in-progress story id, leaving the Foreman and the
outside world untouched (nothing is queued); and on every exit path of a
non-busy `run` — success, failure, or thrown error — the `finally` block has
released the single-flight guard and cleared all per-run tracking
(`managedSessions`, `storyPath`, `taskStats`). -/
theorem single_flight_and_cleanup (f : Foreman) (env : Env) (w : World)
    (storyId : String) (fuel : Nat) :
    (f.isRunning = true →
      Foreman.run f env w storyId fuel =
        (.error ("Foreman busy with story " ++ showNullable f.currentStoryId),
          f, w)) ∧
    (f.isRunning = false →
      (Foreman.run f env w storyId fuel).2.1.isRunning = false ∧
      (Foreman.run f env w storyId fuel).2.1.managedSessions = [] ∧
      (Foreman.run f env w storyId fuel).2.1.storyPath = none ∧
      (Foreman.run f env w storyId fuel).2.1.taskStats = none) := by
  constructor
  · intro h
    simp only [Foreman.run, h, if_true]
  · intro h
    simp only [Foreman.run, h, Bool.false_eq_true, if_false]
    rcases hrt : runTry (runStart f storyId) env w storyId fuel with ⟨r, f2, w2⟩
    simp [cleanup]

/-- Witness for C5: a fresh (non-running) Foreman and an empty environment;
the run exits (unresolvable story) with guard released and tracking clear. -/
theorem single_flight_and_cleanup_witness :
    ((Foreman.run
        ⟨⟨"docs/stories", "docs/sprint-status.yaml", 3, [],
          ⟨"anthropic/claude-sonnet-4-20250514", "sisyphus"⟩,
          ⟨"anthropic/claude-sonnet-4-20250514", "sisyphus"⟩,
          ⟨"anthropic/claude-opus-4-20250514", "sisyphus"⟩, 1800000, 5⟩,
          .Idle, none, 1, false, [], none, none⟩
        ⟨fun _ => none, fun _ => [], fun _ _ => [], fun _ => [], fun _ => ""⟩
        ⟨0, 0, 0, [], [], [], []⟩ "1-3" 9).2.1.isRunning = false) ∧
    ((Foreman.run
        ⟨⟨"docs/stories", "docs/sprint-status.yaml", 3, [],
          ⟨"anthropic/claude-sonnet-4-20250514", "sisyphus"⟩,
          ⟨"anthropic/claude-sonnet-4-20250514", "sisyphus"⟩,
          ⟨"anthropic/claude-opus-4-20250514", "sisyphus"⟩, 1800000, 5⟩,
          .Idle, none, 1, false, [], none, none⟩
        ⟨fun _ => none, fun _ => [], fun _ _ => [], fun _ => [], fun _ => ""⟩
        ⟨0, 0, 0, [], [], [], []⟩ "1-3" 9).2.1.managedSessions = []) := by
  have h := (single_flight_and_cleanup
    ⟨⟨"docs/stories", "docs/sprint-status.yaml", 3, [],
      ⟨"anthropic/claude-sonnet-4-20250514", "sisyphus"⟩,
      ⟨"anthropic/claude-sonnet-4-20250514", "sisyphus"⟩,
      ⟨"anthropic/claude-opus-4-20250514", "sisyphus"⟩, 1800000, 5⟩,
      .Idle, none, 1, false, [], none, none⟩
    ⟨fun _ => none, fun _ => [], fun _ _ => [], fun _ => [], fun _ => ""⟩
    ⟨0, 0, 0, [], [], [], []⟩ "1-3" 9).2 rfl
  exact ⟨h.1, h.2.1⟩

/-- `arbiterSetup` only ever adds to `managedSessions`: the iteration
counter, machine state and configuration come through unchanged. -/
theorem arbiterSetup_preserves (f : Foreman) (env : Env) (w : World) :
    (arbiterSetup f env w).2.1.iteration = f.iteration ∧
    (arbiterSetup f env w).2.1.state = f.state ∧
    (arbiterSetup f env w).2.1.config = f.config := by
  rcases hc : env.createIds w.createCount with _ | sid
  · simp [arbiterSetup, createSession, hc]
  · rcases hp : parseModel f.config.arbiter.model with e | ab
    · simp [arbiterSetup, createSession, hc, sendPrompt, hp]
    · simp only [arbiterSetup, createSession, hc, sendPrompt, hp,
        getLastAssistantMessage]
      split <;> simp

/-! ## C6: iteration bump policy -/

/-- C6: `run` sets the iteration counter to 1 at run start (`runStart`); and
in an Arbitrating step whose setup (create/prompt/wait/fetch) succeeds with
last text `text`, the counter is incremented exactly when
`parseArbiterVerdict text = NeedsWork` and the state machine computes
`Developing` (i.e. `iteration < maxIterations`); when the ceiling truncates
the NeedsWork transition to `Complete`, and on a `Pass` verdict, the counter
is unchanged. -/
theorem iteration_bump_policy (f : Foreman) (env : Env) (w : World)
    (sid text : String) (f1 : Foreman) (w1 : World) (g : Foreman)
    (storyId : String)
    (hstate : f.state = ForemanState.Arbitrating)
    (hsetup : arbiterSetup f env w = (.ok (sid, text), f1, w1)) :
    (runStart g storyId).iteration = 1 ∧
    (parseArbiterVerdict text = .NeedsWork →
      f.iteration < f.config.max_iterations →
      runArbiterSession f env w =
        (.ok (), {f1 with state := .Developing, iteration := f.iteration + 1},
          w1)) ∧
    (parseArbiterVerdict text = .NeedsWork →
      f.config.max_iterations ≤ f.iteration →
      runArbiterSession f env w =
        (.ok (), {f1 with state := .Complete}, w1) ∧
      ({f1 with state := ForemanState.Complete} : Foreman).iteration =
        f.iteration) ∧
    (parseArbiterVerdict text = .Pass →
      runArbiterSession f env w =
        (.ok (), {f1 with state := .Complete}, w1) ∧
      ({f1 with state := ForemanState.Complete} : Foreman).iteration =
        f.iteration) := by
  have hpres := arbiterSetup_preserves f env w
  rw [hsetup] at hpres
  simp only [Prod.snd, Prod.fst] at hpres
  obtain ⟨hiter, hst1, hcfg⟩ := hpres
  have hst : f1.state = ForemanState.Arbitrating := hst1.trans hstate
  refine ⟨rfl, ?_, ?_, ?_⟩
  · intro hv hlt
    simp only [runArbiterSession, hsetup, hv, hst, hiter, hcfg, nextState,
      Option.getD_some]
    rw [if_neg (Nat.not_le.mpr hlt)]
    simp [hiter]
  · intro hv hge
    refine ⟨?_, by simp [hiter]⟩
    simp only [runArbiterSession, hsetup, hv, hst, hiter, hcfg, nextState,
      Option.getD_some]
    rw [if_pos hge]
    simp
  · intro hv
    refine ⟨?_, by simp [hiter]⟩
    simp only [runArbiterSession, hsetup, hv, hst, hiter, hcfg, nextState,
      Option.getD_some]
    simp

/-- Concrete Arbitrating-state Foreman for the C6 witness. -/
def fArb : Foreman :=
  ⟨⟨"docs/stories", "docs/sprint-status.yaml", 3, [],
    ⟨"anthropic/claude-sonnet-4-20250514", "sisyphus"⟩,
    ⟨"anthropic/claude-sonnet-4-20250514", "sisyphus"⟩,
    ⟨"anthropic/claude-opus-4-20250514", "sisyphus"⟩, 1800000, 5⟩,
   .Arbitrating, some "1-3", 1, true, [], some "docs/stories/1-3-x.md", none⟩

/-- Environment for the C6 witness: session `s1` is created, is never busy,
and its last assistant message is `PASS`. -/
def envArb : Env :=
  ⟨fun _ => some "s1", fun _ => [],
   fun _ _ => [⟨some "assistant", [⟨"text", some "PASS"⟩]⟩],
   fun _ => [], fun _ => ""⟩

/-- Fresh world for the C6 witness. -/
def wArb : World := ⟨0, 0, 0, [], [], [], []⟩

/-- Witness for C6: on a `PASS` verdict the Arbitrating step completes with
the iteration counter untouched, and `runStart` resets the counter to 1. -/
theorem iteration_bump_policy_witness :
    runArbiterSession fArb envArb wArb =
      (.ok (),
        {(arbiterSetup fArb envArb wArb).2.1 with
          state := ForemanState.Complete},
        (arbiterSetup fArb envArb wArb).2.2) ∧
    (runStart fArb "1-3").iteration = 1 := by
  have h := iteration_bump_policy fArb envArb wArb "s1" "PASS"
    (arbiterSetup fArb envArb wArb).2.1 (arbiterSetup fArb envArb wArb).2.2
    fArb "1-3" rfl rfl
  exact ⟨(h.2.2.2 (by decide)).1, h.1⟩

/-! ## C8: polling timeout and auto-answer ceiling -/

/-- C8: (a) if every poll reports the session busy, the whole poll budget
(the wall-clock timeout) is consumed, the session is aborted, and the step
fails with the timeout error; (b) if every poll is a completion candidate but
the last assistant text is always classified as a question, the step fails
with the auto-answer-exhausted error as soon as an 11th answer would be due —
for any remaining budget, i.e. independently of the outer timeout. -/
theorem timeout_and_auto_answer_limits (cfg : ForemanConfig) (env : Env)
    (sid : String) :
    (∀ (b auto : Nat) (w : World),
      (∀ n, List.lookup sid (env.statusAt n) = some .busy) →
      waitForSession cfg env sid b auto w =
        (.error (timeoutMsg sid cfg.role_timeout_ms),
          {w with statusCount := w.statusCount + b,
                  aborted := w.aborted ++ [sid]})) ∧
    (∀ (b auto : Nat) (w : World),
      (∀ n, List.lookup sid (env.statusAt n) = some .idle) →
      (∀ n, classify (lastAssistantText (env.messagesAt n sid)) ≠ .noReply) →
      auto ≤ 10 → 11 - auto ≤ b →
      (waitForSession cfg env sid b auto w).1 = .error (tooManyMsg sid)) := by
  constructor
  · intro b
    induction b with
    | zero =>
        intro auto w hbusy
        simp [waitForSession]
    | succ b ih =>
        intro auto w hbusy
        simp only [waitForSession, hbusy w.statusCount]
        rw [ih auto {w with statusCount := w.statusCount + 1} hbusy]
        have hsc : w.statusCount + 1 + b = w.statusCount + (b + 1) := by omega
        simp [hsc]
  · intro b
    induction b with
    | zero =>
        intro auto w _ _ h10 h11
        omega
    | succ b ih =>
        intro auto w hidle hq h10 h11
        simp only [waitForSession, hidle w.statusCount, detectAndAutoAnswer,
          getLastAssistantMessage]
        rcases hcl : classify (lastAssistantText (env.messagesAt w.msgCount sid))
          with _ | ans
        · exact absurd hcl (hq w.msgCount)
        · dsimp only
          by_cases hc : 10 < auto + 1
          · simp [hc]
          · simp only [if_true, if_neg hc]
            exact ih (auto + 1)
              {w with statusCount := w.statusCount + 1,
                      msgCount := w.msgCount + 1,
                      prompts := w.prompts ++ [(sid, ans)]}
              hidle hq (by omega) (by omega)

/-- Default-shaped config for the polling witnesses. -/
def cfgW : ForemanConfig :=
  ⟨"docs/stories", "docs/sprint-status.yaml", 3, [],
   ⟨"anthropic/claude-sonnet-4-20250514", "sisyphus"⟩,
   ⟨"anthropic/claude-sonnet-4-20250514", "sisyphus"⟩,
   ⟨"anthropic/claude-opus-4-20250514", "sisyphus"⟩, 1800000, 5⟩

/-- Environment whose session `s1` polls busy forever. -/
def envBusy : Env :=
  ⟨fun _ => none, fun _ => [("s1", .busy)], fun _ _ => [], fun _ => [],
   fun _ => ""⟩

/-- Environment whose session `s1` polls idle but always ends on a
confirmation question. -/
def envAsk : Env :=
  ⟨fun _ => none, fun _ => [("s1", .idle)],
   fun _ _ => [⟨some "assistant", [⟨"text", some "continue?"⟩]⟩],
   fun _ => [], fun _ => ""⟩

/-- Witness for C8: two busy polls exhaust a budget of 2 (abort + timeout
error); a perpetually questioning session fails with the auto-answer error
even with plenty of budget (20) left. -/
theorem timeout_and_auto_answer_limits_witness :
    waitForSession cfgW envBusy "s1" 2 0 ⟨0, 0, 0, [], [], [], []⟩ =
      (.error (timeoutMsg "s1" cfgW.role_timeout_ms),
        {(⟨0, 0, 0, [], [], [], []⟩ : World) with
          statusCount := (⟨0, 0, 0, [], [], [], []⟩ : World).statusCount + 2,
          aborted := (⟨0, 0, 0, [], [], [], []⟩ : World).aborted ++ ["s1"]}) ∧
    (waitForSession cfgW envAsk "s1" 20 0 ⟨0, 0, 0, [], [], [], []⟩).1 =
      .error (tooManyMsg "s1") := by
  refine ⟨(timeout_and_auto_answer_limits cfgW envBusy "s1").1 2 0 _
    (fun _ => rfl), ?_⟩
  exact (timeout_and_auto_answer_limits cfgW envAsk "s1").2 20 0 _
    (fun _ => rfl)
    (fun _ => by
      show classify (lastAssistantText
        [⟨some "assistant", [⟨"text", some "continue?"⟩]⟩]) ≠ AutoReply.noReply
      decide)
    (by decide) (by decide)

/-! ## C10: a missing status entry is treated as idle -/

/-- Add an explicit `idle` entry for `sid` to every status response in which
`sid` has no entry at all. -/
def envIdleAll (env : Env) (sid : String) : Env :=
  {env with statusAt := fun n =>
    match List.lookup sid (env.statusAt n) with
    | none => (sid, SessStatus.idle) :: env.statusAt n
    | some _ => env.statusAt n}

/-- C10: (a) the polling loop behaves identically under an environment in
which every status response missing the tracked session id instead reports
it explicitly idle — a missing entry is treated exactly as idle; (b) if the
session id is absent from every status response and its last assistant
message is empty (or has no text parts), no prompt is detected and the step
completes on the very first poll — one status query and one message fetch —
rather than waiting until timeout, for any remaining budget and auto-answer
count. -/
theorem missing_status_idle_equiv (cfg : ForemanConfig) (env : Env)
    (sid : String) :
    (∀ (b auto : Nat) (w : World),
      waitForSession cfg env sid b auto w =
        waitForSession cfg (envIdleAll env sid) sid b auto w) ∧
    (∀ (b auto : Nat) (w : World),
      (∀ n, List.lookup sid (env.statusAt n) = none) →
      (∀ n, lastAssistantText (env.messagesAt n sid) = "") →
      waitForSession cfg env sid (b + 1) auto w =
        (.ok (), {w with statusCount := w.statusCount + 1,
                         msgCount := w.msgCount + 1})) := by
  constructor
  · intro b
    induction b with
    | zero => intro auto w; rfl
    | succ b ih =>
        intro auto w
        simp only [waitForSession]
        rcases hl : List.lookup sid (env.statusAt w.statusCount) with _ | s
        · have hr : List.lookup sid
              ((envIdleAll env sid).statusAt w.statusCount) = some .idle := by
            simp [envIdleAll, hl]
          rw [hr]
          have hd : detectAndAutoAnswer (envIdleAll env sid) sid
              {w with statusCount := w.statusCount + 1} =
              detectAndAutoAnswer env sid
                {w with statusCount := w.statusCount + 1} := rfl
          rw [hd]
          rcases hda : detectAndAutoAnswer env sid
              {w with statusCount := w.statusCount + 1} with ⟨wq, w2⟩
          cases wq with
          | false => rfl
          | true =>
              by_cases hc : 10 < auto + 1
              · simp [hc]
              · simp only [if_true, if_neg hc]
                exact ih (auto + 1) w2
        · have hr : List.lookup sid
              ((envIdleAll env sid).statusAt w.statusCount) = some s := by
            simp [envIdleAll, hl]
          rw [hr]
          cases s with
          | idle =>
              have hd : detectAndAutoAnswer (envIdleAll env sid) sid
                  {w with statusCount := w.statusCount + 1} =
                  detectAndAutoAnswer env sid
                    {w with statusCount := w.statusCount + 1} := rfl
              rw [hd]
              rcases hda : detectAndAutoAnswer env sid
                  {w with statusCount := w.statusCount + 1} with ⟨wq, w2⟩
              cases wq with
              | false => rfl
              | true =>
                  by_cases hc : 10 < auto + 1
                  · simp [hc]
                  · simp only [if_true, if_neg hc]
                    exact ih (auto + 1) w2
          | busy => exact ih auto {w with statusCount := w.statusCount + 1}
          | retry => exact ih auto {w with statusCount := w.statusCount + 1}
  · intro b auto w h1 h2
    simp only [waitForSession, h1 w.statusCount, detectAndAutoAnswer,
      getLastAssistantMessage, h2 w.msgCount]
    simp [classify]

/-- Environment in which session `s1` appears in no status response and has
no messages. -/
def envNone : Env :=
  ⟨fun _ => none, fun _ => [], fun _ _ => [], fun _ => [], fun _ => ""⟩

/-- Witness for C10 at an environment with `s1` absent everywhere: the
idle-augmented environment is indistinguishable, and the step completes on
the first poll. -/
theorem missing_status_idle_equiv_witness :
    waitForSession cfgW envNone "s1" 3 0 ⟨0, 0, 0, [], [], [], []⟩ =
      waitForSession cfgW (envIdleAll envNone "s1") "s1" 3 0
        ⟨0, 0, 0, [], [], [], []⟩ ∧
    waitForSession cfgW envNone "s1" (2 + 1) 0 ⟨0, 0, 0, [], [], [], []⟩ =
      (.ok (), {(⟨0, 0, 0, [], [], [], []⟩ : World) with
        statusCount := (⟨0, 0, 0, [], [], [], []⟩ : World).statusCount + 1,
        msgCount := (⟨0, 0, 0, [], [], [], []⟩ : World).msgCount + 1}) := by
  refine ⟨(missing_status_idle_equiv cfgW envNone "s1").1 3 0 _, ?_⟩
  exact (missing_status_idle_equiv cfgW envNone "s1").2 2 0 _
    (fun _ => rfl) (fun _ => rfl)
